import Mathlib

/-
Verification development for the core of bdsg's mapped_structs.hpp:
the intra-chain free-list arena allocator (ArenaAllocatorRef /
ArenaAllocatorBlockRef over a MappingContext), the relocation-safe
pointers (offset_ptr, yomo::Pointer), the big-endian integer cell
(big_endian<T>) and the owning handle (UniqueMappedPointer).

Modelling conventions:
- The chain/arena is a logically contiguous byte range; a block header
  is 24 bytes (two 8-byte link cells plus one 8-byte size cell) and the
  allocator header (ArenaAllocatorRef::body_t) is 16 bytes.
- offset_ptr / offset_to cells denote either a target chain position or
  null (the all-ones sentinel); we model the denotation as Option Nat.
- The block map is an association list from header position to header
  contents; it is the ground truth of which block headers exist.
- Loops over the free list are written with explicit fuel; a fuel of
  (number of blocks + 1) is enough in every well-formed state.  On a
  corrupted (cyclic) list the C++ would not terminate; the model stops.
-/

/-- sizeof(ArenaAllocatorBlockRef::body_t): prev, next, size at 8 bytes each. -/
def headerSize : Nat := 24

/-- sizeof(ArenaAllocatorRef::body_t): first_free and last_free cells. -/
def allocatorBodySize : Nat := 16

/-- Denotation of ArenaAllocatorBlockRef::body_t: a block header.
`prev`/`next` are the free-list links (None is the null sentinel) and
`bsize` is the byte size of the user region, excluding the header. -/
structure Block where
  prev : Option Nat
  next : Option Nat
  bsize : Nat
deriving DecidableEq, Repr

/-- The allocator-relevant state of a MappingContext arena: the context
size, the allocator body (first_free/last_free) that lives at position 0,
and the block headers present in the arena, keyed by header position. -/
structure ArenaState where
  sz : Nat
  firstFree : Option Nat
  lastFree : Option Nat
  blocks : List (Nat × Block)
deriving DecidableEq, Repr

/-- First-match association-list lookup for the block map. -/
def lookupBlocks : List (Nat × Block) → Nat → Option Block
  | [], _ => none
  | (a, blk) :: t, k => if a = k then some blk else lookupBlocks t k

/-- Read the block header at a position, if a block header lives there. -/
def getBlock (s : ArenaState) (k : Nat) : Option Block :=
  lookupBlocks s.blocks k

/-- Read a block header, with a junk default for positions holding no
header (the C++ would read raw memory there; well-formed states never do). -/
def getBlockD (s : ArenaState) (k : Nat) : Block :=
  (getBlock s k).getD ⟨none, none, 0⟩

/-- User-region size of the block at a position (0 if no block). -/
def blockSizeD (s : ArenaState) (k : Nat) : Nat :=
  (getBlockD s k).bsize

/-- Rewrite the header of the block at position `k` in place. -/
def setBlock (s : ArenaState) (k : Nat) (f : Block → Block) : ArenaState :=
  { s with blocks := s.blocks.map (fun e => (e.1, if e.1 = k then f e.2 else e.2)) }

/-- A new block header is written at position `k` (placement new). -/
def addBlock (s : ArenaState) (k : Nat) (blk : Block) : ArenaState :=
  { s with blocks := (k, blk) :: s.blocks }

/-- The header at position `k` stops being a block header (its bytes
dissolve into the surrounding free space after coalescing). -/
def removeBlock (s : ArenaState) (k : Nat) : ArenaState :=
  { s with blocks := s.blocks.filter (fun e => e.1 ≠ k) }

/-- Enough fuel to traverse any acyclic free list of the state. -/
def listFuel (s : ArenaState) : Nat := s.blocks.length + 1

/-- The first-fit scan of ArenaAllocatorRef::allocate:
`while (found && found.size() < user_bytes) found = found.get_next();`. -/
def findFit (s : ArenaState) : Nat → Option Nat → Nat → Option Nat
  | 0, _, _ => none
  | _, none, _ => none
  | fuel + 1, some p, n =>
    match getBlock s p with
    | none => none
    | some b => if b.bsize < n then findFit s fuel b.next n else some p

/-- The positions on the free list, walking `next` links from `cur`. -/
def chainWalk (s : ArenaState) : Nat → Option Nat → List Nat
  | 0, _ => []
  | _, none => []
  | fuel + 1, some p =>
    match getBlock s p with
    | none => []
    | some b => p :: chainWalk s fuel b.next

/-- The free list of the state, walked from first_free. -/
def freeChain (s : ArenaState) : List Nat :=
  chainWalk s (listFuel s) s.firstFree

/-- The grow step of ArenaAllocatorRef::allocate (the `if (!found)`
branch): remember where new memory starts, grow the context by
`max(context->size, block_bytes)`, placement-new a block header there
with null links, set its size to `user_bytes`, and install it as both
first_free and last_free.  Returns the new state and the block position. -/
def growStep (s : ArenaState) (userBytes blockBytes : Nat) : ArenaState × Nat :=
  let newFree := s.sz
  let newBytes := max s.sz blockBytes
  let s1 := { s with sz := s.sz + newBytes }
  let s2 := addBlock s1 newFree ⟨none, none, userBytes⟩
  ({ s2 with firstFree := some newFree, lastFree := some newFree }, newFree)

/-- Modelled from the spec: ArenaAllocatorBlockRef::immediately_before
(body in mapped_structs.cpp, not in src/): this block comes immediately
before the other when `self_position + header_size + self.size ==
other_position` (a single MappingContext arena has one segment). -/
def immediatelyBefore (s : ArenaState) (p q : Nat) : Bool :=
  match getBlock s p with
  | none => false
  | some b => p + headerSize + b.bsize == q

/-- Modelled from the spec: ArenaAllocatorBlockRef::split (body in
mapped_structs.cpp, not in src/): keep `firstBytes` bytes in this block,
write a new header immediately after that user region carrying the
remainder of the original size minus header overhead, and splice the new
block into the free list directly after this one.  Returns the new state
and the new block's position. -/
def splitBlock (s : ArenaState) (p : Nat) (firstBytes : Nat) : ArenaState × Nat :=
  match getBlock s p with
  | none => (s, p)
  | some b =>
    let q := p + headerSize + firstBytes
    let s1 := setBlock s p (fun pb => { pb with bsize := firstBytes, next := some q })
    let s2 := addBlock s1 q ⟨some p, b.next, b.bsize - firstBytes - headerSize⟩
    let s3 :=
      match b.next with
      | some r => setBlock s2 r (fun rb => { rb with prev := some q })
      | none => s2
    (s3, q)

/-- Modelled from the spec: ArenaAllocatorBlockRef::detach (body in
mapped_structs.cpp, not in src/): remove this block from the free list,
rewiring its neighbours to each other and nulling its own prev/next.
Returns the blocks that were before and after it (null refs at the ends). -/
def detachBlock (s : ArenaState) (p : Nat) : ArenaState × (Option Nat × Option Nat) :=
  match getBlock s p with
  | none => (s, (none, none))
  | some b =>
    let s1 :=
      match b.prev with
      | some l => setBlock s l (fun lb => { lb with next := b.next })
      | none => s
    let s2 :=
      match b.next with
      | some r => setBlock s1 r (fun rb => { rb with prev := b.prev })
      | none => s1
    let s3 := setBlock s2 p (fun pb => { pb with prev := none, next := none })
    (s3, (b.prev, b.next))

/-- Modelled from the spec: ArenaAllocatorBlockRef::attach (body in
mapped_structs.cpp, not in src/): wire this block into the free list
between the given blocks, either of which may be a null ref. -/
def attachBlock (s : ArenaState) (p : Nat) (left right : Option Nat) : ArenaState :=
  let s1 := setBlock s p (fun pb => { pb with prev := left, next := right })
  let s2 :=
    match left with
    | some l => setBlock s1 l (fun lb => { lb with next := some p })
    | none => s1
  match right with
  | some r => setBlock s2 r (fun rb => { rb with prev := some p })
  | none => s2

/-- Leftmost block of the contiguous free run containing `p`: walk `prev`
links while the neighbour is immediately adjacent in position. -/
def runLeft (s : ArenaState) : Nat → Nat → Nat
  | 0, p => p
  | fuel + 1, p =>
    match getBlock s p with
    | none => p
    | some b =>
      match b.prev with
      | none => p
      | some l => if immediatelyBefore s l p then runLeft s fuel l else p

/-- The members of the contiguous free run starting at `p`, walking
`next` links while the blocks are immediately adjacent in position. -/
def runMembersRight (s : ArenaState) : Nat → Nat → List Nat
  | 0, p => [p]
  | fuel + 1, p =>
    match getBlock s p with
    | none => [p]
    | some b =>
      match b.next with
      | none => [p]
      | some r => if immediatelyBefore s p r then p :: runMembersRight s fuel r else [p]

/-- Modelled from the spec: ArenaAllocatorBlockRef::coalesce (body in
mapped_structs.cpp, not in src/): find the maximal contiguous run of
free-list blocks containing `p`, merge it by extending the leftmost
block's size over the absorbed blocks (whose headers dissolve into the
free space) and unlinking them.  Returns the first and last blocks of
the run. -/
def coalesceBlock (s : ArenaState) (p : Nat) (fuel : Nat) : ArenaState × (Nat × Nat) :=
  let first := runLeft s fuel p
  let members := runMembersRight s fuel first
  match members with
  | [] => (s, (first, first))
  | [_] => (s, (first, first))
  | _ :: rest =>
    let last := rest.getLastD first
    let lastB := getBlockD s last
    let s1 := setBlock s first
      (fun b => { b with bsize := last + lastB.bsize - first, next := lastB.next })
    let s2 := rest.foldl removeBlock s1
    let s3 :=
      match lastB.next with
      | some r => setBlock s2 r (fun rb => { rb with prev := some first })
      | none => s2
    (s3, (first, last))

/-- The split step of ArenaAllocatorRef::allocate: when the found
block's size strictly exceeds `block_bytes`, split it and fix last_free
if it pointed at the split block; otherwise leave the state alone. -/
def splitStage (s : ArenaState) (userBytes blockBytes found : Nat) : ArenaState :=
  if blockBytes < (getBlockD s found).bsize then
    let sp := splitBlock s found userBytes
    if sp.1.lastFree = some found then { sp.1 with lastFree := some sp.2 } else sp.1
  else s

/-- The detach step of ArenaAllocatorRef::allocate: detach the found
block, then set first_free to the first component of the detach result
if the block was the list head, and last_free to the second component if
it was the tail. -/
def detachStage (s : ArenaState) (found : Nat) : ArenaState :=
  let d := detachBlock s found
  let s3 := if d.1.firstFree = some found then { d.1 with firstFree := d.2.1 } else d.1
  if s3.lastFree = some found then { s3 with lastFree := d.2.2 } else s3

/-- The tail of ArenaAllocatorRef::allocate after a free block `found`
big enough for the request is in hand: split it when its size strictly
exceeds `block_bytes`, detach it from the free list, and hand out the
position of its user data. -/
def allocFinish (s : ArenaState) (userBytes blockBytes found : Nat) : ArenaState × Nat :=
  (detachStage (splitStage s userBytes blockBytes found) found, found + headerSize)

/-- ArenaAllocatorRef::allocate for a request of `userBytes` bytes
(`n * sizeof(T)` in the C++): first-fit scan the free list from
first_free; if nothing fits, run the grow step; then split/detach the
found block and return the position of its user data. -/
def allocate (s : ArenaState) (userBytes : Nat) : ArenaState × Nat :=
  let blockBytes := userBytes + headerSize
  match findFit s (listFuel s) s.firstFree userBytes with
  | some p => allocFinish s userBytes blockBytes p
  | none =>
    let g := growStep s userBytes blockBytes
    allocFinish g.1 userBytes blockBytes g.2

/-- The successor scan of ArenaAllocatorRef::deallocate:
`while (right && right.position < found.position) right = right.get_next();`. -/
def findRight (s : ArenaState) : Nat → Option Nat → Nat → Option Nat
  | 0, _, _ => none
  | _, none, _ => none
  | fuel + 1, some r, pos =>
    if r < pos then findRight s fuel (getBlockD s r).next pos else some r

/-- ArenaAllocatorRef::deallocate of the user pointer `p`: recover the
block header, find the first free-list block after it, wire the block in
between that block and its predecessor (or at the tail), update
first_free/last_free, then coalesce the contiguous run and update
last_free if the run's last block was the tail. -/
def deallocate (s : ArenaState) (p : Nat) : ArenaState :=
  let found := p - headerSize
  let right := findRight s (listFuel s) s.firstFree found
  let left :=
    match right with
    | none => s.lastFree
    | some r => (getBlockD s r).prev
  let s1 := attachBlock s found left right
  let s2 := if s1.lastFree = left then { s1 with lastFree := some found } else s1
  let s3 := if s2.firstFree = right then { s2 with firstFree := some found } else s2
  let c := coalesceBlock s3 found (listFuel s3)
  if c.1.lastFree = some c.2.2 then { c.1 with lastFree := some c.2.1 } else c.1

/-- An allocator operation: allocate a byte count, or deallocate the
user position returned by an earlier allocate. -/
inductive AOp where
  | alloc (n : Nat)
  | free (p : Nat)
deriving DecidableEq, Repr

/-- Apply one operation to the arena. -/
def applyOp (s : ArenaState) : AOp → ArenaState
  | .alloc n => (allocate s n).1
  | .free p => deallocate s p

/-- Run a sequence of allocator operations. -/
def runOps (s : ArenaState) (ops : List AOp) : ArenaState :=
  ops.foldl applyOp s

/-- The state of a fresh arena right after the ArenaAllocatorRef
constructor: the context holds exactly the allocator body (first_free
and last_free both null) and no block headers. -/
def initState : ArenaState :=
  { sz := allocatorBodySize, firstFree := none, lastFree := none, blocks := [] }

/-- The arena state used for claim C1: two allocations of 100 bytes,
then the first one freed, leaving the free list [16]. -/
def c1s : ArenaState := runOps initState [AOp.alloc 100, AOp.alloc 100, AOp.free 40]

/-- The arena state used for claim C2, before its final deallocate:
three allocations, blocks 16 and 280 freed (list [16, 280]), then an
allocate of 100 bytes that detaches the head block 16. -/
def c2sA : ArenaState :=
  runOps initState
    [AOp.alloc 100, AOp.alloc 100, AOp.alloc 100, AOp.free 40, AOp.free 304, AOp.alloc 100]

/-- The arena state used for claim C2: `c2sA` after deallocating the
still-live middle block (user position 164, header 140). -/
def c2s : ArenaState := deallocate c2sA 164

/-- The arena state used for claim C3: one allocation of 100 bytes,
freed again, leaving a single free block of size 100 at position 16. -/
def c3s : ArenaState := runOps initState [AOp.alloc 100, AOp.free 40]

/-- The arena state used for the claim C4 witness: its free list is
[16, 194] with block 16 of size 30 and block 194 of size 50. -/
def c4s : ArenaState :=
  runOps initState [AOp.alloc 30, AOp.alloc 100, AOp.alloc 50, AOp.free 40, AOp.free 218]

/-- numeric_limits of size_t: the sentinel offset denoting a null
offset_ptr, and likewise a null yomo::Pointer position. -/
def OFF_SENTINEL : Nat := 2 ^ 64 - 1

/-- Denotation of offset_ptr<T>: the stored big_endian<size_t> offset
from the pointer's own address to its target, or the sentinel for null. -/
structure OffsetPtr where
  offset : Nat
deriving DecidableEq, Repr

/-- offset_ptr<T>::offset_ptr(): constructs holding the sentinel. -/
def offsetPtrDefault : OffsetPtr := ⟨OFF_SENTINEL⟩

/-- offset_ptr<T>::operator=(const T* addr): a null address stores the
sentinel; otherwise the offset is the size_t difference (mod 2^64)
between the target address and the pointer's own address. -/
def offAssignAddr (selfAddr : Nat) (addr : Option Nat) : OffsetPtr :=
  match addr with
  | none => ⟨OFF_SENTINEL⟩
  | some a => ⟨(a + 2 ^ 64 - selfAddr % 2 ^ 64) % 2 ^ 64⟩

/-- offset_ptr<T>::operator->(): throws "Null pointer dereference" on
the sentinel, otherwise returns the pointer's own address plus the
stored offset (size_t arithmetic). -/
def offArrow (selfAddr : Nat) (p : OffsetPtr) : Except String Nat :=
  if p.offset = OFF_SENTINEL then Except.error "Null pointer dereference"
  else Except.ok ((selfAddr + p.offset) % 2 ^ 64)

/-- offset_ptr<T>::operator=(const offset_ptr<T>&): delegates to
address assignment from `other.operator->()` (which may throw), then
ends without a return statement; the second component models the
returned reference, `none` because the source returns nothing. -/
def offCopyAssign (selfAddr otherAddr : Nat) (other : OffsetPtr) :
    Except String (OffsetPtr × Option OffsetPtr) :=
  match offArrow otherAddr other with
  | Except.error e => Except.error e
  | Except.ok a => Except.ok (offAssignAddr selfAddr (some a), none)

/-- offset_ptr<T>::operator=(offset_ptr<T>&&): same body as the copy
assignment in the source, including the missing return. -/
def offMoveAssign (selfAddr otherAddr : Nat) (other : OffsetPtr) :
    Except String (OffsetPtr × Option OffsetPtr) :=
  match offArrow otherAddr other with
  | Except.error e => Except.error e
  | Except.ok a => Except.ok (offAssignAddr selfAddr (some a), none)

/-- offset_ptr<T>::offset_ptr(const offset_ptr<T>&): assigns from
`other.operator->()`, which throws when `other` is null. -/
def offCopyCtor (selfAddr otherAddr : Nat) (other : OffsetPtr) : Except String OffsetPtr :=
  match offArrow otherAddr other with
  | Except.error e => Except.error e
  | Except.ok a => Except.ok (offAssignAddr selfAddr (some a))

/-- offset_ptr<T>::offset_ptr(offset_ptr<T>&&): same body as the copy
constructor in the source. -/
def offMoveCtor (selfAddr otherAddr : Nat) (other : OffsetPtr) : Except String OffsetPtr :=
  match offArrow otherAddr other with
  | Except.error e => Except.error e
  | Except.ok a => Except.ok (offAssignAddr selfAddr (some a))

/-- Denotation of yomo::Pointer<T>: the stored big_endian<size_t> chain
position, with the maximum value meaning null. -/
structure YPointer where
  position : Nat
deriving DecidableEq, Repr

/-- yomo::Pointer<T>::Pointer(): the member initializer stores the
sentinel, so a default-constructed pointer equals nullptr. -/
def yPointerDefault : YPointer := ⟨OFF_SENTINEL⟩

/-- yomo::Pointer<T>::operator=(T* addr): a null address stores the
sentinel; otherwise the position comes from
Manager::get_position_in_same_chain (whose body is in
mapped_structs.cpp, not in src/), abstracted as `getPos`. -/
def yPtrAssign (getPos : Nat → Nat) (addr : Option Nat) : YPointer :=
  match addr with
  | none => ⟨OFF_SENTINEL⟩
  | some a => ⟨getPos a⟩

/-- yomo::Pointer<T>::get(): the sentinel returns nullptr without
consulting the Manager; otherwise the address comes from
Manager::get_address_in_same_chain, abstracted as `getAddr`. -/
def yPtrGet (getAddr : Nat → Nat) (p : YPointer) : Option Nat :=
  if p.position = OFF_SENTINEL then none else some (getAddr p.position)

/-- Manager::chainid_t NO_CHAIN: the id of the empty handle. -/
def NO_CHAIN : Nat := 0

/-- Denotation of UniqueMappedPointer<T>: its single chain id field. -/
structure UMPtr where
  chain : Nat
deriving DecidableEq, Repr

/-- A call made by UniqueMappedPointer into the Manager (whose bodies
are in mapped_structs.cpp, not in src/); recording these calls lets the
theorems say that a failing operation performs none of them. -/
inductive MCall where
  | getAssociated (chain fd : Nat)
  | getDissociated (chain : Nat)
  | destroy (chain : Nat)
deriving DecidableEq, Repr

/-- UniqueMappedPointer<T>::save(fd): throws "Cannot save a null
object" on an empty handle before touching the Manager; otherwise
produces a file-backed copy, destroys the old chain and adopts the new
id (abstracted as `newId` since the Manager body is not in src/).
Result: the updated handle, the Manager calls made, and the thrown
message if any. -/
def umpSave (newId : Nat) (u : UMPtr) (fd : Nat) : UMPtr × List MCall × Option String :=
  if u.chain = NO_CHAIN then (u, [], some "Cannot save a null object")
  else (⟨newId⟩, [MCall.getAssociated u.chain fd, MCall.destroy u.chain], none)

/-- UniqueMappedPointer<T>::dissociate(): throws "Cannot dissociate a
null object" on an empty handle before touching the Manager; otherwise
copies the chain anonymously, destroys the old chain and adopts the new
id. -/
def umpDissociate (newId : Nat) (u : UMPtr) : UMPtr × List MCall × Option String :=
  if u.chain = NO_CHAIN then (u, [], some "Cannot dissociate a null object")
  else (⟨newId⟩, [MCall.getDissociated u.chain, MCall.destroy u.chain], none)

/-- Big-endian byte encoding of a host integer, exactly `w` bytes, most
significant first (htobe16/htobe32/htobe64 into the storage array). -/
def encodeBE : Nat → Nat → List Nat
  | 0, _ => []
  | w + 1, x => encodeBE w (x / 256) ++ [x % 256]

/-- Reading the storage array back as a host integer
(be16toh/be32toh/be64toh). -/
def decodeBE (bytes : List Nat) : Nat :=
  bytes.foldl (fun acc b => acc * 256 + b) 0

/-- Storing a signed host integer: the two's-complement representative
of the value modulo 2^(8w) is what the byte store holds. -/
def encodeSBE (w : Nat) (i : Int) : List Nat :=
  encodeBE w (i % (2 ^ (8 * w))).toNat

/-- Reading a signed host integer back from the stored bytes: values at
or above 2^(8w-1) represent negatives (two's complement). -/
def decodeSBE (w : Nat) (bytes : List Nat) : Int :=
  let u := decodeBE bytes
  if u < 2 ^ (8 * w - 1) then (u : Int) else (u : Int) - 2 ^ (8 * w)

/-
Helper lemmas about the block map.
-/

theorem lookupBlocks_map_set (l : List (Nat × Block)) (k q : Nat) (f : Block → Block) :
    lookupBlocks (l.map (fun e => (e.1, if e.1 = k then f e.2 else e.2))) q =
      (lookupBlocks l q).map (fun blk => if q = k then f blk else blk) := by
  induction l with
  | nil => rfl
  | cons e t ih =>
    obtain ⟨a, blk⟩ := e
    by_cases haq : a = q
    · subst haq
      simp [lookupBlocks, ih]
    · simp [lookupBlocks, haq, ih]

@[simp] theorem getBlock_setBlock (s : ArenaState) (k q : Nat) (f : Block → Block) :
    getBlock (setBlock s k f) q =
      (getBlock s q).map (fun blk => if q = k then f blk else blk) := by
  simpa [getBlock, setBlock] using lookupBlocks_map_set s.blocks k q f

@[simp] theorem getBlock_addBlock (s : ArenaState) (k q : Nat) (blk : Block) :
    getBlock (addBlock s k blk) q = if k = q then some blk else getBlock s q := by
  simp [getBlock, addBlock, lookupBlocks]

@[simp] theorem setBlock_sz (s : ArenaState) (k : Nat) (f : Block → Block) :
    (setBlock s k f).sz = s.sz := rfl

@[simp] theorem setBlock_firstFree (s : ArenaState) (k : Nat) (f : Block → Block) :
    (setBlock s k f).firstFree = s.firstFree := rfl

@[simp] theorem setBlock_lastFree (s : ArenaState) (k : Nat) (f : Block → Block) :
    (setBlock s k f).lastFree = s.lastFree := rfl

@[simp] theorem addBlock_sz (s : ArenaState) (k : Nat) (blk : Block) :
    (addBlock s k blk).sz = s.sz := rfl

@[simp] theorem addBlock_firstFree (s : ArenaState) (k : Nat) (blk : Block) :
    (addBlock s k blk).firstFree = s.firstFree := rfl

@[simp] theorem addBlock_lastFree (s : ArenaState) (k : Nat) (blk : Block) :
    (addBlock s k blk).lastFree = s.lastFree := rfl

@[simp] theorem removeBlock_sz (s : ArenaState) (k : Nat) :
    (removeBlock s k).sz = s.sz := rfl

theorem splitBlock_sz (s : ArenaState) (p f : Nat) :
    (splitBlock s p f).1.sz = s.sz := by
  unfold splitBlock
  cases h : getBlock s p with
  | none => rfl
  | some b =>
    obtain ⟨bp, bn, bs⟩ := b
    cases bn <;> simp

theorem detachBlock_sz (s : ArenaState) (p : Nat) :
    (detachBlock s p).1.sz = s.sz := by
  unfold detachBlock
  cases h : getBlock s p with
  | none => rfl
  | some b =>
    obtain ⟨bp, bn, bs⟩ := b
    cases bp <;> cases bn <;> simp

theorem splitStage_sz (s : ArenaState) (u bb p : Nat) :
    (splitStage s u bb p).sz = s.sz := by
  unfold splitStage
  dsimp only
  by_cases hc : bb < (getBlockD s p).bsize
  · rw [if_pos hc]
    by_cases h2 : (splitBlock s p u).1.lastFree = some p
    · rw [if_pos h2]
      simp [splitBlock_sz]
    · rw [if_neg h2]
      exact splitBlock_sz s p u
  · rw [if_neg hc]

theorem detachStage_sz (s : ArenaState) (p : Nat) :
    (detachStage s p).sz = s.sz := by
  unfold detachStage
  dsimp only
  by_cases h1 : (detachBlock s p).1.firstFree = some p
  · rw [if_pos h1]
    dsimp only
    by_cases h2 : (detachBlock s p).1.lastFree = some p
    · rw [if_pos h2]
      simp [detachBlock_sz]
    · rw [if_neg h2]
      simp [detachBlock_sz]
  · rw [if_neg h1]
    by_cases h2 : (detachBlock s p).1.lastFree = some p
    · rw [if_pos h2]
      simp [detachBlock_sz]
    · rw [if_neg h2]
      exact detachBlock_sz s p

theorem allocFinish_sz (s : ArenaState) (u bb p : Nat) :
    (allocFinish s u bb p).1.sz = s.sz := by
  unfold allocFinish
  dsimp only
  rw [detachStage_sz, splitStage_sz]

/-- Claim C1 (refuted): in ArenaAllocatorRef::allocate, when the first-fit
scan fails while the free list is non-empty, the grow step installs the
single fresh block as both first_free and last_free, so the free blocks
that were on the list before the grow are dropped from it, not kept.
Concretely, from the reachable state c1s the free list is [16]; after the
grow step for a 200-byte request (block_bytes 224) the free list is just
the new block [280], block 16 is no longer on it (though its header still
says it is free), and the completed allocate hands out block 280, leaving
an empty free list with block 16 stranded. -/
theorem grow_drops_existing_free_blocks :
    freeChain c1s = [16] ∧
    (growStep c1s 200 (200 + headerSize)).1.firstFree = some 280 ∧
    (growStep c1s 200 (200 + headerSize)).1.lastFree = some 280 ∧
    freeChain (growStep c1s 200 (200 + headerSize)).1 = [280] ∧
    getBlock (growStep c1s 200 (200 + headerSize)).1 16 = some ⟨none, none, 100⟩ ∧
    (allocate c1s 200).2 = 304 ∧
    freeChain (allocate c1s 200).1 = [] ∧
    getBlock (allocate c1s 200).1 16 = some ⟨none, none, 100⟩ := by
  decide

/-- Claim C2 (refuted): the free-list invariants are not preserved by
every reachable sequence of allocate/deallocate.  After the six
operations of c2sA, allocate detached the head block 16 of the two-block
free list [16, 280] and set first_free to the detach result's *first*
component (the null predecessor) instead of the successor, leaving
first_free null while last_free still points at 280.  Deallocating the
still-live block 140 then attaches it after 280 and makes it both head
and tail, so in the reachable state c2s the head block of the free list
has a non-null prev pointer (it points back at 280). -/
theorem free_list_head_prev_nonnull_reachable :
    c2sA.firstFree = none ∧
    c2sA.lastFree = some 280 ∧
    c2s.firstFree = some 140 ∧
    c2s.lastFree = some 140 ∧
    getBlock c2s 140 = some ⟨some 280, none, 100⟩ := by
  decide

/-- Claim C3, counterexample to the claim as stated: in state c3s the
free list holds one block of size 100 at position 16; allocate(76) finds
it, the leftover 100 - 76 = 24 is exactly sizeof(block_header), yet the
code hands out the whole block unsplit (its size stays 100 and no new
header appears at 116), because the source splits only when
size > n + header, not when the leftover merely reaches the header size. -/
theorem split_at_header_sized_leftover_does_not_happen :
    getBlock c3s 16 = some ⟨none, none, 100⟩ ∧
    headerSize ≤ 100 - 76 ∧
    (allocate c3s 76).2 = 40 ∧
    getBlock (allocate c3s 76).1 16 = some ⟨none, none, 100⟩ ∧
    getBlock (allocate c3s 76).1 116 = none := by
  decide

/-- Claim C6 (confirmed): for yomo::Pointer, assigning a null host
address stores the sentinel position, dereferencing a pointer holding
the sentinel returns the null host address without consulting the
Manager, and a default-constructed pointer dereferences to null; this
holds for every Manager resolution behaviour. -/
theorem chain_pointer_null_sentinel :
    (∀ getPos : Nat → Nat, yPtrAssign getPos none = ⟨OFF_SENTINEL⟩) ∧
    (∀ getAddr : Nat → Nat, yPtrGet getAddr ⟨OFF_SENTINEL⟩ = none) ∧
    (∀ getAddr : Nat → Nat, yPtrGet getAddr yPointerDefault = none) :=
  ⟨fun _ => rfl, fun _ => by simp [yPtrGet], fun _ => by simp [yPtrGet, yPointerDefault]⟩

/-- Claim C8 (refuted, code bug): offset_ptr's copy assignment performs
the offset update but its body ends without any return statement, so it
does not return *this as the contract requires; the model's second
component records the returned reference and is none.  Here the
assigned-to pointer sits at address 100, the source pointer at address
200 with offset 50 (target 250), so the stored offset becomes 150. -/
theorem offset_ptr_copy_assign_returns_nothing :
    offCopyAssign 100 200 ⟨50⟩ = Except.ok (⟨150⟩, none) ∧
    offMoveAssign 100 200 ⟨50⟩ = Except.ok (⟨150⟩, none) := by
  constructor <;> rfl

/-- Claim C9 (confirmed): copy construction, move construction, copy
assignment and move assignment from a null offset_ptr all resolve the
source through operator->, which throws "Null pointer dereference" on
the sentinel offset, whatever the two pointers' addresses are. -/
theorem offset_ptr_ops_from_null_throw :
    ∀ selfAddr otherAddr : Nat,
      offCopyAssign selfAddr otherAddr ⟨OFF_SENTINEL⟩ =
        Except.error "Null pointer dereference" ∧
      offMoveAssign selfAddr otherAddr ⟨OFF_SENTINEL⟩ =
        Except.error "Null pointer dereference" ∧
      offCopyCtor selfAddr otherAddr ⟨OFF_SENTINEL⟩ =
        Except.error "Null pointer dereference" ∧
      offMoveCtor selfAddr otherAddr ⟨OFF_SENTINEL⟩ =
        Except.error "Null pointer dereference" := by
  intro selfAddr otherAddr
  refine ⟨?_, ?_, ?_, ?_⟩ <;>
    simp [offCopyAssign, offMoveAssign, offCopyCtor, offMoveCtor, offArrow]

/-- Claim C10 (confirmed): save(fd) and dissociate() on an empty handle
(chain id NO_CHAIN) throw their runtime errors, leave the handle
unchanged, and make no Manager call (no chain is created, copied or
destroyed), for any file descriptor and any would-be new chain id. -/
theorem empty_handle_save_dissociate_throw (newId fd : Nat) (u : UMPtr)
    (h : u.chain = NO_CHAIN) :
    umpSave newId u fd = (u, [], some "Cannot save a null object") ∧
    umpDissociate newId u = (u, [], some "Cannot dissociate a null object") := by
  constructor <;> simp [umpSave, umpDissociate, h]

/-- Witness for empty_handle_save_dissociate_throw at a concrete empty
handle, file descriptor 3 and oracle id 7. -/
theorem empty_handle_save_dissociate_throw_witness :
    (UMPtr.mk 0).chain = NO_CHAIN ∧
    (umpSave 7 ⟨0⟩ 3 = (⟨0⟩, [], some "Cannot save a null object") ∧
     umpDissociate 7 ⟨0⟩ = (⟨0⟩, [], some "Cannot dissociate a null object")) :=
  ⟨rfl, empty_handle_save_dissociate_throw 7 3 ⟨0⟩ rfl⟩

theorem findFit_first_fit (s : ArenaState) :
    ∀ (F : Nat) (cur : Option Nat) (n p : Nat),
      findFit s F cur n = some p →
      n ≤ blockSizeD s p ∧
        ∃ l1 l2, chainWalk s F cur = l1 ++ p :: l2 ∧ ∀ q ∈ l1, blockSizeD s q < n := by
  intro F
  induction F with
  | zero =>
    intro cur n p h
    simp [findFit] at h
  | succ F ih =>
    intro cur n p h
    cases cur with
    | none => simp [findFit] at h
    | some r =>
      rw [findFit] at h
      cases hb : getBlock s r with
      | none =>
        rw [hb] at h
        exact absurd h (by simp)
      | some b =>
        rw [hb] at h
        dsimp only at h
        by_cases hlt : b.bsize < n
        · rw [if_pos hlt] at h
          obtain ⟨h1, l1, l2, hw, hsmall⟩ := ih b.next n p h
          refine ⟨h1, r :: l1, l2, ?_, ?_⟩
          · rw [chainWalk, hb]
            dsimp only
            rw [hw]
            rfl
          · intro q hq
            rcases List.mem_cons.mp hq with rfl | hq
            · simpa [blockSizeD, getBlockD, hb] using hlt
            · exact hsmall q hq
        · rw [if_neg hlt] at h
          obtain rfl : r = p := by
            simpa using h
          refine ⟨?_, [], chainWalk s F b.next, ?_, by simp⟩
          · simp only [blockSizeD, getBlockD, hb, Option.getD_some]
            omega
          · rw [chainWalk, hb]
            dsimp only
            rfl

/-- Claim C4 (confirmed): allocate's scan is first-fit: when it returns
block `p`, starting from first_free and following next links, `p` is on
the free list with size at least `n`, and every free block that was
skipped before it has size strictly less than `n`. -/
theorem first_fit_scan_correct (s : ArenaState) (n p : Nat)
    (h : findFit s (listFuel s) s.firstFree n = some p) :
    n ≤ blockSizeD s p ∧
      ∃ l1 l2, freeChain s = l1 ++ p :: l2 ∧ ∀ q ∈ l1, blockSizeD s q < n :=
  findFit_first_fit s (listFuel s) s.firstFree n p h

/-- Witness for first_fit_scan_correct: in state c4s the free list is
[16, 194] with sizes 30 and 50; the scan for 40 bytes skips block 16 and
selects block 194. -/
theorem first_fit_scan_correct_witness :
    findFit c4s (listFuel c4s) c4s.firstFree 40 = some 194 ∧
    (40 ≤ blockSizeD c4s 194 ∧
      ∃ l1 l2, freeChain c4s = l1 ++ 194 :: l2 ∧ ∀ q ∈ l1, blockSizeD c4s q < 40) :=
  ⟨by decide, first_fit_scan_correct c4s 40 194 (by decide)⟩

/-- Claim C5 (confirmed): whenever the first-fit scan fails, allocate
grows the arena by exactly max(current_total_size, requested_block_bytes)
bytes, where the requested block bytes include the block header. -/
theorem grow_amount_exact (s : ArenaState) (n : Nat)
    (h : findFit s (listFuel s) s.firstFree n = none) :
    ((allocate s n).1).sz = s.sz + max s.sz (n + headerSize) := by
  unfold allocate
  rw [h]
  dsimp only
  rw [allocFinish_sz]
  simp [growStep]

/-- Witness for grow_amount_exact: a fresh arena satisfies no request,
so allocate(100) grows it by max(16, 124) bytes to 140 bytes. -/
theorem grow_amount_exact_witness :
    findFit initState (listFuel initState) initState.firstFree 100 = none ∧
    ((allocate initState 100).1).sz = initState.sz + max initState.sz (100 + headerSize) :=
  ⟨by decide, grow_amount_exact initState 100 (by decide)⟩

theorem decodeBE_append (l : List Nat) (b : Nat) :
    decodeBE (l ++ [b]) = decodeBE l * 256 + b := by
  simp [decodeBE, List.foldl_append]

theorem decodeBE_encodeBE (w : Nat) : ∀ x : Nat, decodeBE (encodeBE w x) = x % 256 ^ w := by
  induction w with
  | zero =>
    intro x
    simp [encodeBE, decodeBE, Nat.mod_one]
  | succ w ih =>
    intro x
    rw [encodeBE, decodeBE_append, ih]
    rw [pow_succ, mul_comm ((256:Nat) ^ w) 256, Nat.mod_mul]
    omega

theorem decodeBE_zeros (w : Nat) : decodeBE (List.replicate w 0) = 0 := by
  induction w with
  | zero => rfl
  | succ w ih =>
    rw [List.replicate_succ]
    simpa [decodeBE] using ih

theorem pow256_eq (w : Nat) : (256:Nat) ^ w = 2 ^ (8 * w) := by
  rw [show (256:Nat) = 2 ^ 8 by norm_num, ← pow_mul]

theorem decodeSBE_encodeSBE (w : Nat) (hw : 1 ≤ w) (i : Int)
    (hlo : -(2 ^ (8 * w - 1)) ≤ i) (hhi : i < 2 ^ (8 * w - 1)) :
    decodeSBE w (encodeSBE w i) = i := by
  have hsplit : 8 * w - 1 + 1 = 8 * w := by omega
  have hMN : (2:Nat) ^ (8 * w) = 2 ^ (8 * w - 1) * 2 := by
    rw [← pow_succ, hsplit]
  have hNpos : (0:Nat) < 2 ^ (8 * w - 1) := by positivity
  set N : Nat := 2 ^ (8 * w - 1) with hN
  set M : Nat := 2 ^ (8 * w) with hM
  have hint : (2:Int) ^ (8 * w) = (M : Int) := by
    rw [hM]
    push_cast
    ring
  have hNint : (2:Int) ^ (8 * w - 1) = (N : Int) := by
    rw [hN]
    push_cast
    ring
  have hcast : ((M : Int)) = ((N : Int)) * 2 := by omega
  rw [hNint] at hlo hhi
  unfold encodeSBE decodeSBE
  rw [decodeBE_encodeBE, pow256_eq, ← hM, ← hN, hint]
  set e : Int := i % ((M : Int)) with he
  have he0 : 0 ≤ e := by
    rw [he]
    exact Int.emod_nonneg i (by omega)
  have he1 : e < (M : Int) := by
    rw [he]
    exact Int.emod_lt_of_pos i (by omega)
  have harg : e.toNat % M = e.toNat := Nat.mod_eq_of_lt (by omega)
  rw [harg]
  by_cases hpos : 0 ≤ i
  · have hei : e = i := by
      rw [he]
      exact Int.emod_eq_of_lt hpos (by omega)
    rw [if_pos (by omega : e.toNat < N)]
    omega
  · have h1 : (i + (M : Int)) % ((M : Int)) = i % ((M : Int)) := by
      simp
    have h2 : (i + (M : Int)) % ((M : Int)) = i + (M : Int) :=
      Int.emod_eq_of_lt (by omega) (by omega)
    have key : e = i + (M : Int) := by
      rw [he, ← h1, h2]
    rw [if_neg (by omega : ¬ e.toNat < N)]
    omega

/-- Claim C7 (confirmed): for each supported width (16, 32 or 64 bits,
i.e. 2, 4 or 8 bytes), storing a host integer into a big_endian cell and
reading it back is the identity, both for unsigned values below 2^(8w)
and for signed values in the two's-complement range, and the all-zero
default cell reads back as integer 0 in both interpretations. -/
theorem big_endian_round_trip (w : Nat) (hw : w = 2 ∨ w = 4 ∨ w = 8) :
    (∀ x : Nat, x < 2 ^ (8 * w) → decodeBE (encodeBE w x) = x) ∧
    (∀ i : Int, -(2 ^ (8 * w - 1)) ≤ i → i < 2 ^ (8 * w - 1) →
      decodeSBE w (encodeSBE w i) = i) ∧
    decodeBE (List.replicate w 0) = 0 ∧
    decodeSBE w (List.replicate w 0) = 0 := by
  have hw1 : 1 ≤ w := by rcases hw with rfl | rfl | rfl <;> norm_num
  refine ⟨?_, ?_, decodeBE_zeros w, ?_⟩
  · intro x hx
    rw [decodeBE_encodeBE, pow256_eq]
    exact Nat.mod_eq_of_lt hx
  · intro i h1 h2
    exact decodeSBE_encodeSBE w hw1 i h1 h2
  · unfold decodeSBE
    rw [decodeBE_zeros]
    rw [if_pos (by positivity)]
    simp

/-- Witness for big_endian_round_trip at width 8 (64 bits): 300 and -5
round-trip and the all-zero cell reads as 0. -/
theorem big_endian_round_trip_witness :
    ((8:Nat) = 2 ∨ (8:Nat) = 4 ∨ (8:Nat) = 8) ∧
    decodeBE (encodeBE 8 300) = 300 ∧
    decodeSBE 8 (encodeSBE 8 (-5)) = -5 ∧
    decodeBE (List.replicate 8 0) = 0 :=
  ⟨by decide,
   (big_endian_round_trip 8 (by decide)).1 300 (by norm_num),
   (big_endian_round_trip 8 (by decide)).2.1 (-5) (by norm_num) (by norm_num),
   (big_endian_round_trip 8 (by decide)).2.2.1⟩

theorem getBlock_detachStage (t : ArenaState) (p q' : Nat) :
    getBlock (detachStage t p) q' = getBlock (detachBlock t p).1 q' := by
  unfold detachStage
  dsimp only
  by_cases h1 : (detachBlock t p).1.firstFree = some p
  · rw [if_pos h1]
    dsimp only
    by_cases h2 : (detachBlock t p).1.lastFree = some p
    · rw [if_pos h2]
      rfl
    · rw [if_neg h2]
      rfl
  · rw [if_neg h1]
    by_cases h2 : (detachBlock t p).1.lastFree = some p
    · rw [if_pos h2]
      rfl
    · rw [if_neg h2]

theorem getBlock_splitStage (s : ArenaState) (u bb p q' : Nat) :
    getBlock (splitStage s u bb p) q' =
      if bb < (getBlockD s p).bsize then getBlock (splitBlock s p u).1 q'
      else getBlock s q' := by
  unfold splitStage
  dsimp only
  by_cases hc : bb < (getBlockD s p).bsize
  · rw [if_pos hc, if_pos hc]
    by_cases h2 : (splitBlock s p u).1.lastFree = some p
    · rw [if_pos h2]
      rfl
    · rw [if_neg h2]
  · rw [if_neg hc, if_neg hc]

theorem getBlock_detachBlock_self (t : ArenaState) (p : Nat) (c : Block)
    (hc : getBlock t p = some c) :
    getBlock (detachBlock t p).1 p = some ⟨none, none, c.bsize⟩ := by
  unfold detachBlock
  rw [hc]
  dsimp only
  obtain ⟨cp, cn, cs⟩ := c
  rcases cp with _ | l
  · rcases cn with _ | r
    · simp [hc]
    · dsimp only
      by_cases hpr : p = r
      · subst hpr
        simp [hc]
      · simp [hc, hpr]
  · rcases cn with _ | r
    · dsimp only
      by_cases hpl : p = l
      · subst hpl
        simp [hc]
      · simp [hc, hpl]
    · dsimp only
      by_cases hpl : p = l
      · subst hpl
        by_cases hpr : p = r
        · subst hpr
          simp [hc]
        · simp [hc, hpr]
      · by_cases hpr : p = r
        · subst hpr
          simp [hc, hpl]
        · simp [hc, hpl, hpr]

theorem getBlock_detachBlock_right (t : ArenaState) (p r : Nat) (c cr : Block)
    (hc : getBlock t p = some c) (hcn : c.next = some r) (hrp : r ≠ p)
    (hlr : c.prev ≠ some r) (hcr : getBlock t r = some cr) :
    getBlock (detachBlock t p).1 r = some ⟨c.prev, cr.next, cr.bsize⟩ := by
  unfold detachBlock
  rw [hc]
  dsimp only
  obtain ⟨cp, cn, cs⟩ := c
  dsimp only at hcn hlr
  subst hcn
  rcases cp with _ | l
  · dsimp only
    simp [hcr, hrp]
  · dsimp only
    have hrl : r ≠ l := by
      intro h
      exact hlr (by rw [h])
    simp [hcr, hrp, hrl]

theorem getBlock_detachBlock_none (t : ArenaState) (p q' : Nat)
    (hq' : getBlock t q' = none) :
    getBlock (detachBlock t p).1 q' = none := by
  unfold detachBlock
  cases hc : getBlock t p with
  | none => exact hq'
  | some c =>
    dsimp only
    obtain ⟨cp, cn, cs⟩ := c
    rcases cp with _ | l <;> rcases cn with _ | r <;> simp [hq']

theorem getBlock_splitBlock_self (s : ArenaState) (p n : Nat) (b : Block)
    (h2 : getBlock s p = some b) (h3 : b.next ≠ some p) :
    getBlock (splitBlock s p n).1 p =
      some ⟨b.prev, some (p + headerSize + n), n⟩ := by
  have h24 : headerSize = 24 := rfl
  have hqp : p + headerSize + n ≠ p := by omega
  unfold splitBlock
  rw [h2]
  dsimp only
  obtain ⟨bp, bn, bs⟩ := b
  dsimp only at h3 ⊢
  rcases bn with _ | r
  · simp [h2, hqp]
  · have hrp : r ≠ p := by
      intro h
      exact h3 (by rw [h])
    have hpr : p ≠ r := Ne.symm hrp
    simp [h2, hqp, hpr]

theorem getBlock_splitBlock_second (s : ArenaState) (p n : Nat) (b : Block)
    (h2 : getBlock s p = some b) :
    ∃ pr, getBlock (splitBlock s p n).1 (p + headerSize + n) =
      some ⟨pr, b.next, b.bsize - n - headerSize⟩ := by
  unfold splitBlock
  rw [h2]
  dsimp only
  obtain ⟨bp, bn, bs⟩ := b
  dsimp only
  rcases bn with _ | r
  · exact ⟨some p, by simp⟩
  · by_cases hrq : r = p + headerSize + n
    · subst hrq
      exact ⟨some (p + headerSize + n), by simp⟩
    · have hqr : p + headerSize + n ≠ r := Ne.symm hrq
      exact ⟨some p, by simp [hqr]⟩

/-- Claim C3 amended (the claim's two formulations disagree when the
leftover equals exactly the header size; the code follows the strict
one): during allocate(n), the found free block of header `b` at `p` is
split exactly when its size strictly exceeds n + sizeof(block_header);
then the handed-out block shrinks to n and a new free block carrying the
remainder minus header overhead appears right after the user region.
Otherwise — including when the leftover is exactly the header size — the
full block is handed out unsplit and no new header is created.  The two
disequality hypotheses are sanity conditions on the found header that
hold in every well-formed state. -/
theorem split_threshold_strict (s : ArenaState) (n p : Nat) (b : Block)
    (h1 : findFit s (listFuel s) s.firstFree n = some p)
    (h2 : getBlock s p = some b)
    (h3 : b.next ≠ some p)
    (h4 : b.prev ≠ some (p + headerSize + n)) :
    (allocate s n).2 = p + headerSize ∧
    (n + headerSize < b.bsize →
      getBlock (allocate s n).1 p = some ⟨none, none, n⟩ ∧
      getBlock (allocate s n).1 (p + headerSize + n) =
        some ⟨b.prev, b.next, b.bsize - n - headerSize⟩) ∧
    (b.bsize ≤ n + headerSize →
      getBlock (allocate s n).1 p = some ⟨none, none, b.bsize⟩ ∧
      (getBlock s (p + headerSize + n) = none →
        getBlock (allocate s n).1 (p + headerSize + n) = none)) := by
  have h24 : headerSize = 24 := rfl
  have hqp : p + headerSize + n ≠ p := by omega
  have hall : allocate s n = allocFinish s n (n + headerSize) p := by
    unfold allocate
    rw [h1]
  have hD : getBlockD s p = b := by
    rw [getBlockD, h2]
    rfl
  have hfin : (allocFinish s n (n + headerSize) p).1 =
      detachStage (splitStage s n (n + headerSize) p) p := rfl
  rw [hall, hfin]
  refine ⟨rfl, ?_, ?_⟩
  · intro hlt
    have hsp := getBlock_splitBlock_self s p n b h2 h3
    obtain ⟨pr, hsq⟩ := getBlock_splitBlock_second s p n b h2
    have hTp : getBlock (splitStage s n (n + headerSize) p) p =
        some ⟨b.prev, some (p + headerSize + n), n⟩ := by
      rw [getBlock_splitStage, hD, if_pos hlt]
      exact hsp
    have hTq : getBlock (splitStage s n (n + headerSize) p) (p + headerSize + n) =
        some ⟨pr, b.next, b.bsize - n - headerSize⟩ := by
      rw [getBlock_splitStage, hD, if_pos hlt]
      exact hsq
    constructor
    · rw [getBlock_detachStage]
      exact getBlock_detachBlock_self (splitStage s n (n + headerSize) p) p
        ⟨b.prev, some (p + headerSize + n), n⟩ hTp
    · rw [getBlock_detachStage]
      exact getBlock_detachBlock_right (splitStage s n (n + headerSize) p) p
        (p + headerSize + n) ⟨b.prev, some (p + headerSize + n), n⟩
        ⟨pr, b.next, b.bsize - n - headerSize⟩ hTp rfl hqp h4 hTq
  · intro hge
    have hnotlt : ¬ (n + headerSize < b.bsize) := by omega
    have hT : splitStage s n (n + headerSize) p = s := by
      unfold splitStage
      rw [hD, if_neg hnotlt]
    constructor
    · rw [getBlock_detachStage, hT]
      exact getBlock_detachBlock_self s p b h2
    · intro hnone
      rw [getBlock_detachStage, hT]
      exact getBlock_detachBlock_none s p (p + headerSize + n) hnone

/-- Witness for split_threshold_strict: in state c3s the free list holds
one block of size 100 at position 16, and allocate(40) splits it (the
leftover 100 - 40 = 60 strictly exceeds the 24-byte header), leaving the
handed-out block of size 40 and a new free block of size 36 at 80. -/
theorem split_threshold_strict_witness :
    (findFit c3s (listFuel c3s) c3s.firstFree 40 = some 16 ∧
     getBlock c3s 16 = some ⟨none, none, 100⟩) ∧
    ((allocate c3s 40).2 = 16 + headerSize ∧
     (40 + headerSize < 100 →
       getBlock (allocate c3s 40).1 16 = some ⟨none, none, 40⟩ ∧
       getBlock (allocate c3s 40).1 (16 + headerSize + 40) =
         some ⟨none, none, 100 - 40 - headerSize⟩) ∧
     (100 ≤ 40 + headerSize →
       getBlock (allocate c3s 40).1 16 = some ⟨none, none, 100⟩ ∧
       (getBlock c3s (16 + headerSize + 40) = none →
         getBlock (allocate c3s 40).1 (16 + headerSize + 40) = none))) :=
  ⟨⟨by decide, by decide⟩,
   split_threshold_strict c3s 40 16 ⟨none, none, 100⟩ (by decide) (by decide)
     (by decide) (by decide)⟩
